import Mathlib

/-!
Shallow embedding of `src/routes/api/dmarc.ts` from mikepage/dmarc-validator.

JavaScript strings are modelled as `List Char`; the JS string operations used
by the source (`split`, `trim`, `toLowerCase`, `startsWith`, `includes`,
`Array.prototype.join`, `parseInt`, `Math.round`, and the three regex
replacements in the domain normalizer) are given executable models below with
the exact JS semantics on the code points the source can see.  The
`tagDescriptions[tagName]` and `policies[value]` lookups are ordinary JS
property reads on object literals, so they can hit properties inherited from
`Object.prototype`; the embedding models those hits (tag name `__proto__`
makes the lookup produce the non-callable `Object.prototype` and the call
throw a `TypeError`, tag name `constructor` produces the `Object` function
whose call wraps the value, and inherited values hit by `policies[value]`
are non-string descriptions), so record parsing is a fallible `Except`
computation exactly as in the program.  The HTTP handler is modelled as a
pure function of the `domain` query parameter and of the DNS resolver's
answer; wall-clock `queryTime` measurement is real time and is left out of
the embedding.
-/

deriving instance DecidableEq for Except

namespace Dmarc

/-- JS strings are modelled as lists of characters. -/
abbrev Str := List Char

/-- Embed a Lean string literal into the `List Char` model. -/
def str (s : String) : Str := s.data

/-- The JS whitespace set used by `String.prototype.trim`:
WhiteSpace (tab, VT, FF, space, NBSP, BOM, Unicode Zs) plus LineTerminator. -/
def isJsWhitespace (c : Char) : Bool :=
  c = ' ' || c = '\t' || c = '\n' || c = '\r' ||
  c = Char.ofNat 0x0B || c = Char.ofNat 0x0C ||
  c = Char.ofNat 0xA0 || c = Char.ofNat 0x1680 ||
  (0x2000 ≤ c.toNat && c.toNat ≤ 0x200A) ||
  c = Char.ofNat 0x2028 || c = Char.ofNat 0x2029 ||
  c = Char.ofNat 0x202F || c = Char.ofNat 0x205F ||
  c = Char.ofNat 0x3000 || c = Char.ofNat 0xFEFF

/-- The JS LineTerminator set (which the regex `.` never matches). -/
def isLineTerminator (c : Char) : Bool :=
  c = '\n' || c = '\r' || c = Char.ofNat 0x2028 || c = Char.ofNat 0x2029

/-- Model of `s.trim()`: drop JS whitespace from both ends. -/
def jsTrim (s : Str) : Str :=
  ((s.dropWhile isJsWhitespace).reverse.dropWhile isJsWhitespace).reverse

/-- Single-character part of `s.toLowerCase()`: the ASCII mapping plus
U+212A KELVIN SIGN, the one non-ASCII character whose Unicode lowercase is
an ASCII letter (`k`), so every comparison the source performs against its
ASCII-only table keys and the `v=dmarc1` marker is exact under this model.
JS applies the full Unicode lowercase mapping, which on cased letters whose
lowercase stays outside ASCII (Greek, Cyrillic, U+0130 with its two-character
expansion, ...) diverges from this model; those characters can never compare
equal to the ASCII keys in either semantics. -/
def jsCharLower (c : Char) : Char :=
  if c = Char.ofNat 0x212A then 'k' else c.toLower

/-- Model of `s.toLowerCase()` (see `jsCharLower` for its scope). -/
def toLowerStr (s : Str) : Str := s.map jsCharLower

/-- Model of `s.split(sep)` for a single-character separator: JS returns
`[""]` on the empty string and keeps empty fields between separators. -/
def splitOnChar (sep : Char) : Str → List Str
  | [] => [[]]
  | c :: cs =>
    let r := splitOnChar sep cs
    if c = sep then [] :: r
    else (c :: r.headD []) :: r.tail

/-- Model of `parts.join(sep)` for a single-character separator
(`Array.prototype.join`). -/
def joinSep (sep : Char) : List Str → Str
  | [] => []
  | [x] => x
  | x :: y :: xs => x ++ sep :: joinSep sep (y :: xs)

/-- Model of `pre + rest = s`-style `s.startsWith(pre)`. -/
def strStartsWith : Str → Str → Bool
  | [], _ => true
  | _ :: _, [] => false
  | c :: cs, d :: ds => c = d && strStartsWith cs ds

/-- Model of `haystack.includes(needle)`. -/
def strContains (needle : Str) : Str → Bool
  | [] => strStartsWith needle []
  | c :: rest => strStartsWith needle (c :: rest) || strContains needle rest

/-- Decimal rendering of a natural number, fuel-indexed so that it reduces in
the kernel. -/
def natToDigitsAux : Nat → Nat → Str → Str
  | 0, _, acc => acc
  | fuel + 1, n, acc =>
    let d := Char.ofNat (48 + n % 10)
    if n < 10 then d :: acc
    else natToDigitsAux fuel (n / 10) (d :: acc)

/-- Decimal rendering of a natural number. -/
def natToStr (n : Nat) : Str := natToDigitsAux (n + 1) n []

/-- Model of JS number-to-string for the integral doubles produced by
`Math.round` here: plain decimal with a leading minus sign (`-0` renders as
`"0"`).  JS switches to exponential notation at 1e21; under the sub-2^53
parse range in which the `ri` computation is modelled exactly (see
`jsParseInt` and claim C7), the rounded hours stay below 2.6e12, far inside
the plain-decimal range. -/
def intToStr : Int → Str
  | Int.ofNat n => natToStr n
  | Int.negSucc m => '-' :: natToStr (m + 1)

/-- Folds digit characters into a number in the given base. -/
def digitsToNat (base : Nat) (val : Char → Nat) (ds : Str) : Nat :=
  ds.foldl (fun acc c => acc * base + val c) 0

/-- Hexadecimal digit test, as accepted by `parseInt` after a `0x` marker. -/
def isHexDigitChar (c : Char) : Bool :=
  c.isDigit || ('a' ≤ c.toLower && c.toLower ≤ 'f')

/-- Numeric value of a hexadecimal digit character. -/
def hexDigitVal (c : Char) : Nat :=
  if c.isDigit then c.toNat - 48 else c.toLower.toNat - 87

/-- Number of binary digits of `n`, fuel-indexed so that it reduces in the
kernel (`bitLen (n + 1) n` is exact). -/
def bitLen : Nat → Nat → Nat
  | 0, _ => 0
  | fuel + 1, n => if n = 0 then 0 else bitLen fuel (n / 2) + 1

/-- Rounding of a natural number to the nearest IEEE binary64 value
(53 significant bits, ties to even), returned as the exact integer that
double denotes.  Below 2^53 this is the identity.  JS `parseInt` returns a
double, so its integer results carry exactly this rounding; digit strings so
long that the double overflows to Infinity (309 or more digits) are outside
this model (see claim C7). -/
def roundNatToDouble (n : Nat) : Nat :=
  let bits := bitLen (n + 1) n
  if bits ≤ 53 then n
  else
    let k := bits - 53
    let q := n / 2 ^ k
    let r := n % 2 ^ k
    let half := 2 ^ (k - 1)
    let q2 :=
      if half < r then q + 1
      else if r < half then q
      else if q % 2 = 0 then q else q + 1
    q2 * 2 ^ k

/-- Model of JS `parseInt(s)` with no radix argument: skip leading
whitespace, read an optional sign, detect a `0x`/`0X` hex marker, then take
the longest prefix of digits; `none` models `NaN` (no digits at all).  The
digit value is rounded to the nearest binary64 double (`roundNatToDouble`)
because `parseInt` returns a double. -/
def jsParseInt (s : Str) : Option Int :=
  let s1 := s.dropWhile isJsWhitespace
  let sign : Int := match s1 with
    | '-' :: _ => -1
    | _ => 1
  let s2 : Str := match s1 with
    | '-' :: rest => rest
    | '+' :: rest => rest
    | _ => s1
  let hex : Bool := match s2 with
    | '0' :: c :: _ => c = 'x' || c = 'X'
    | _ => false
  let s3 : Str := if hex then s2.drop 2 else s2
  let ds := if hex then s3.takeWhile isHexDigitChar else s3.takeWhile Char.isDigit
  if ds.isEmpty then none
  else some (sign * (roundNatToDouble (digitsToNat (if hex then 16 else 10)
    (if hex then hexDigitVal else fun c => c.toNat - 48) ds) : Nat))

/-- Model of `Math.round(q)`: round half toward positive infinity,
`⌊q + 1/2⌋`.  The JS division `parseInt(value) / 3600` is modelled as exact
rational division; for parses of magnitude below 3600·2^42 (in particular
the whole sub-2^53 range of claim C7) the quotient is either exactly a
half-integer (then representable) or at distance at least 1/3600 from one,
which exceeds the half-ulp division error, so the IEEE computation rounds
to the same integer as this exact model. -/
def mathRound (q : ℚ) : Int := ⌊q + 1 / 2⌋

/-- The hours component of the `ri` tag description:
`Math.round(parseInt(value) / 3600)` rendered into the template string,
with `NaN` when `parseInt` fails. -/
def riHours (value : Str) : Str :=
  match jsParseInt value with
  | some n => intToStr (mathRound ((n : ℚ) / 3600))
  | none => str "NaN"

/-- A Tag's description as the program actually computes it.  The TS
annotation says `string`, but lookups that hit properties inherited from
`Object.prototype` produce other JS values: `Object(value)` (tag name
`constructor`) gives a String wrapper object, which `Response.json`
serializes as its text; `policies["__proto__"]` gives `Object.prototype`
itself, serialized as the empty object; and `policies[k]` for an inherited
method name `k` gives a function, whose field JSON serialization drops
entirely. -/
inductive DescValue where
  | s (text : Str)
  | stringObject (text : Str)
  | protoObj
  | jsFunction (name : Str)
  deriving DecidableEq

/-- The `DmarcTag` interface of the source (`description` is `DescValue`
because inherited-property hits can make it a non-string, see above). -/
structure DmarcTag where
  tag : Str
  value : Str
  description : DescValue
  deriving DecidableEq

/-- The own method names of `Object.prototype` other than `constructor`
(whose value is the `Object` function): a lookup `obj[k]` on an object
literal with one of these keys returns the inherited function. -/
def objectProtoMethodName (k : Str) : Bool :=
  k == str "hasOwnProperty" || k == str "isPrototypeOf" ||
  k == str "propertyIsEnumerable" || k == str "toLocaleString" ||
  k == str "toString" || k == str "valueOf" ||
  k == str "__defineGetter__" || k == str "__defineSetter__" ||
  k == str "__lookupGetter__" || k == str "__lookupSetter__"

/-- The `tagDescriptions` object: an association list from tag name to the
description function, in source order.  JS object lookups
`policies[value] || fallback` are modelled as `if`-chains over the own keys
(every mapped string is non-empty, hence truthy) followed by the inherited
`Object.prototype` hits: `policies["__proto__"]` is `Object.prototype`
(truthy), `policies["constructor"]` is the `Object` function, and the other
all-else inherited method names give functions.  In the `p` arm those hits
are returned raw (a non-string description); in the `sp` and `fo` arms they
are interpolated into a template string, which applies JS `ToString`
(`"[object Object]"` for `Object.prototype` and V8's
`"function <name>() { [native code] }"` for built-in functions, the
`constructor` key naming the function `Object`). -/
def tagDescriptions : List (Str × (Str → DescValue)) :=
  [ (str "v", fun value => .s (str "DMARC version: " ++ value)),
    (str "p", fun value =>
      if value = str "none" then
        .s (str "No action taken on failing emails (monitoring only)")
      else if value = str "quarantine" then
        .s (str "Failing emails should be treated as suspicious (e.g., moved to spam)")
      else if value = str "reject" then
        .s (str "Failing emails should be rejected outright")
      else if value = str "__proto__" then DescValue.protoObj
      else if value = str "constructor" then DescValue.jsFunction (str "Object")
      else if objectProtoMethodName value then DescValue.jsFunction value
      else .s (str "Policy: " ++ value)),
    (str "sp", fun value =>
      .s (str "Subdomain policy: " ++
        (if value = str "none" then str "No action for subdomains"
         else if value = str "quarantine" then str "Quarantine failing emails from subdomains"
         else if value = str "reject" then str "Reject failing emails from subdomains"
         else if value = str "__proto__" then str "[object Object]"
         else if value = str "constructor" then str "function Object() { [native code] }"
         else if objectProtoMethodName value then
           str "function " ++ value ++ str "() { [native code] }"
         else value))),
    (str "rua", fun value => .s (str "Aggregate reports sent to: " ++ value)),
    (str "ruf", fun value => .s (str "Forensic reports sent to: " ++ value)),
    (str "pct", fun value => .s (str "Policy applies to " ++ value ++ str "% of failing emails")),
    (str "adkim", fun value =>
      .s (if value = str "s" then str "DKIM alignment: Strict (exact domain match required)"
          else str "DKIM alignment: Relaxed (organizational domain match allowed)")),
    (str "aspf", fun value =>
      .s (if value = str "s" then str "SPF alignment: Strict (exact domain match required)"
          else str "SPF alignment: Relaxed (organizational domain match allowed)")),
    (str "fo", fun value =>
      .s (str "Failure reporting: " ++
        (if value = str "0" then str "Generate failure report if all mechanisms fail"
         else if value = str "1" then str "Generate failure report if any mechanism fails"
         else if value = str "d" then str "Generate failure report on DKIM failure"
         else if value = str "s" then str "Generate failure report on SPF failure"
         else if value = str "__proto__" then str "[object Object]"
         else if value = str "constructor" then str "function Object() { [native code] }"
         else if objectProtoMethodName value then
           str "function " ++ value ++ str "() { [native code] }"
         else value))),
    (str "rf", fun value => .s (str "Report format: " ++ value)),
    (str "ri", fun value =>
      .s (str "Report interval: " ++ value ++ str " seconds (" ++ riHours value ++ str " hours)")) ]

/-- The non-throwing part of the description lookup: an own key of
`tagDescriptions` calls its arm; otherwise the lowercased tag name can still
be the inherited `constructor` (the `Object` function, whose call
`Object(value)` wraps the value in a String object); every other miss is
`undefined`, hence falsy, and takes the `` `${tagName}: ${value}` ``
fallback.  The remaining inherited names of `Object.prototype` all contain
an uppercase letter except `__proto__` and cannot survive `toLowerCase`. -/
def describeTagOk (tagName value : Str) : DescValue :=
  match tagDescriptions.find? (fun kv => kv.fst == tagName) with
  | some kv => kv.snd value
  | none =>
    if tagName = str "constructor" then DescValue.stringObject value
    else .s (tagName ++ str ": " ++ value)

/-- The full description lookup `tagDescriptions[tagName]` followed by
`descriptionFn ? descriptionFn(value) : fallback`: the tag name `__proto__`
(never an own key) returns the non-callable `Object.prototype`, which is
truthy, so the call throws `TypeError: descriptionFn is not a function`. -/
def describeTag (tagName value : Str) : Except Str DescValue :=
  if tagName = str "__proto__" then .error (str "descriptionFn is not a function")
  else .ok (describeTagOk tagName value)

/-- The (trimmed, lowercased) tag name of a segment: the text before its
first `=`. -/
def tagNameOf (part : Str) : Str :=
  toLowerStr (jsTrim ((splitOnChar '=' part).headD []))

/-- The value of a segment: the fields after the first `=` rejoined with
`=` and trimmed. -/
def segValueOf (part : Str) : Str :=
  jsTrim (joinSep '=' (splitOnChar '=' part).tail)

/-- The tag pushed for a segment whose description lookup does not throw. -/
def parsedTag (part : Str) : DmarcTag :=
  { tag := tagNameOf part
    value := segValueOf part
    description := describeTagOk (tagNameOf part) (segValueOf part) }

/-- Body of the `for` loop of `parseDmarcRecord`: split the segment on `=`,
trim and lowercase the tag, rejoin and trim the value, run the description
lookup (which can throw), and build the tag. -/
def parseSegment (part : Str) : Except Str DmarcTag :=
  (describeTag (tagNameOf part) (segValueOf part)).map
    (fun d => { tag := tagNameOf part, value := segValueOf part, description := d })

/-- The segments of a record: `record.split(";").map(p => p.trim()).filter(Boolean)`. -/
def segments (record : Str) : List Str :=
  ((splitOnChar ';' record).map jsTrim).filter (fun p => !p.isEmpty)

/-- The `for` loop of `parseDmarcRecord`: one push per surviving segment in
order, with a thrown `TypeError` aborting the whole parse at the first
offending segment. -/
def parseLoop : List Str → List DmarcTag → Except Str (List DmarcTag)
  | [], tags => .ok tags
  | part :: rest, tags =>
    match parseSegment part with
    | .ok t => parseLoop rest (tags ++ [t])
    | .error e => .error e

/-- `parseDmarcRecord` as the program runs it: a fallible computation,
because the description lookup throws on the tag name `__proto__`. -/
def parseDmarcRecord (record : Str) : Except Str (List DmarcTag) :=
  parseLoop (segments record) []

/-- `getPolicyDescription`: the `switch` on the policy string. -/
def getPolicyDescription (policy : Str) : Str :=
  if policy = str "reject" then
    str "This domain has a strict DMARC policy. Emails that fail DMARC authentication will be rejected by receiving mail servers. This is the strongest protection against email spoofing."
  else if policy = str "quarantine" then
    str "This domain has a moderate DMARC policy. Emails that fail DMARC authentication may be treated as suspicious and placed in spam/junk folders."
  else if policy = str "none" then
    str "This domain has a monitoring-only DMARC policy. No action is taken on failing emails, but reports may be collected. This provides no protection against spoofing."
  else str "Unknown policy type."

/-- Model of `domain.replace(/^_dmarc\./, "")`: drop a leading `_dmarc.`. -/
def stripUnderscoreDmarc (s : Str) : Str :=
  if strStartsWith (str "_dmarc.") s then s.drop 7 else s

/-- Model of `.replace(/^https?:\/\//, "")`: drop a leading `http://` or
`https://` scheme. -/
def stripScheme (s : Str) : Str :=
  if strStartsWith (str "http://") s then s.drop 7
  else if strStartsWith (str "https://") s then s.drop 8
  else s

/-- Model of `.replace(/\/.*$/, "")` with JS regex semantics: `.` matches no
LineTerminator and `$` (without the `m` flag) only matches at the very end,
so the replaced region starts at the leftmost `/` after which every
character is a non-terminator, and a string whose every `/` is followed by a
line terminator is left unchanged. -/
def stripAfterSlash : Str → Str
  | [] => []
  | c :: cs =>
    if c = '/' && cs.all (fun d => !isLineTerminator d) then []
    else c :: stripAfterSlash cs

/-- The `cleanDomain` computation: the three chained regex replacements. -/
def normalizeDomain (domain : Str) : Str :=
  stripAfterSlash (stripScheme (stripUnderscoreDmarc domain))

/-- Outcome of `Deno.resolveDns(name, "TXT")`: a list of TXT records, each a
list of string chunks, or a thrown error carrying a message (a non-`Error`
throw surfaces as the fixed message `"DMARC lookup failed"`, which this model
represents as that message string). -/
inductive DnsResult where
  | ok (records : List (List Str))
  | error (message : Str)

/-- Record selection: concatenate the chunks of each TXT record, then take
the first whose text starts with `v=dmarc1` case-insensitively. -/
def selectDmarcRecord (records : List (List Str)) : Option Str :=
  (records.map List.flatten).find?
    (fun r => strStartsWith (str "v=dmarc1") (toLowerStr r))

/-- Model of `policyTag?.value || "none"` over
`tags.find(t => t.tag === "p")`: the first `p` tag's value when it is
truthy (non-empty), else `"none"`. -/
def policyFromTags (tags : List DmarcTag) : Str :=
  match tags.find? (fun t => t.tag == str "p") with
  | some t => if t.value = [] then str "none" else t.value
  | none => str "none"

/-- The success payload of the endpoint (the `queryTime` field measures
wall-clock time and is not modelled). -/
structure DmarcResponse where
  domain : Str
  record : Str
  tags : List DmarcTag
  policy : Str
  policyDescription : Str
  deriving DecidableEq

/-- An HTTP-level outcome: `Response.json(body, status)` with either the
success payload or an error message — never both. -/
inductive HandlerResult where
  | success (status : Nat) (payload : DmarcResponse)
  | failure (status : Nat) (error : Str)
  deriving DecidableEq

/-- The `GET` handler of `src/routes/api/dmarc.ts` as a pure function of the
`domain` query parameter (`none` models an absent parameter; the JS guard
`!domain` also fires on the empty string) and of the resolver's behaviour.
Both a resolver error and a `TypeError` thrown while parsing the selected
record land in the same `catch`, whose message check routes them to 404 or
500. -/
def handleGet : Option Str → (Str → DnsResult) → HandlerResult
  | none, _ => .failure 400 (str "Domain is required")
  | some domain, resolve =>
    if domain = [] then .failure 400 (str "Domain is required")
    else
      match resolve (str "_dmarc." ++ normalizeDomain domain) with
      | .error msg =>
        if strContains (str "no record") msg then
          .failure 404 (str "No DMARC record found for " ++ normalizeDomain domain ++
            str ". The domain may not have DMARC configured.")
        else .failure 500 msg
      | .ok records =>
        match selectDmarcRecord records with
        | none => .failure 404 (str "No DMARC record found for " ++ normalizeDomain domain)
        | some dmarcRecord =>
          match parseDmarcRecord dmarcRecord with
          | .error msg =>
            if strContains (str "no record") msg then
              .failure 404 (str "No DMARC record found for " ++ normalizeDomain domain ++
                str ". The domain may not have DMARC configured.")
            else .failure 500 msg
          | .ok tags =>
            .success 200
              { domain := normalizeDomain domain
                record := dmarcRecord
                tags := tags
                policy := policyFromTags tags
                policyDescription := getPolicyDescription (policyFromTags tags) }

/-- Projection: the payload's policy of a success outcome. -/
def resultPolicy : HandlerResult → Option Str
  | .success _ p => some p.policy
  | .failure _ _ => none

/-- Projection: the payload's tag list of a success outcome. -/
def resultTags : HandlerResult → Option (List DmarcTag)
  | .success _ p => some p.tags
  | .failure _ _ => none

/-- Projection: the payload's raw record of a success outcome. -/
def resultRecord : HandlerResult → Option Str
  | .success _ p => some p.record
  | .failure _ _ => none

/-- Projection: the payload's policy description of a success outcome. -/
def resultPolicyDescription : HandlerResult → Option Str
  | .success _ p => some p.policyDescription
  | .failure _ _ => none

/-! ## Helper lemmas -/

/-- `splitOnChar` never returns the empty list of fields. -/
theorem splitOnChar_ne_nil (sep : Char) : ∀ s : Str, splitOnChar sep s ≠ []
  | [] => by simp [splitOnChar]
  | c :: cs => by
    simp only [splitOnChar]
    split <;> simp

/-- Splitting a separator-free string yields that single field. -/
theorem splitOnChar_no_sep (sep : Char) :
    ∀ s : Str, sep ∉ s → splitOnChar sep s = [s]
  | [], _ => rfl
  | c :: cs, h => by
    have hc : ¬c = sep := fun he => h (he ▸ List.mem_cons_self c cs)
    have hcs : sep ∉ cs := fun hm => h (List.mem_cons_of_mem c hm)
    simp only [splitOnChar, if_neg hc, splitOnChar_no_sep sep cs hcs]
    rfl

/-- Splitting at the first separator: a separator-free chunk before `sep`
becomes the head field, the rest splits on its own. -/
theorem splitOnChar_first (sep : Char) :
    ∀ (a : Str) (b : Str), sep ∉ a →
      splitOnChar sep (a ++ sep :: b) = a :: splitOnChar sep b
  | [], b, _ => by simp [splitOnChar]
  | c :: cs, b, h => by
    have hc : ¬c = sep := fun he => h (he ▸ List.mem_cons_self c cs)
    have hcs : sep ∉ cs := fun hm => h (List.mem_cons_of_mem c hm)
    have ih := splitOnChar_first sep cs b hcs
    simp only [List.cons_append, splitOnChar, if_neg hc]
    rw [show cs.append (sep :: b) = cs ++ sep :: b from rfl, ih]
    rfl

/-- Moving a head character out of the first field of a `joinSep`. -/
theorem joinSep_cons_head (sep c : Char) (h : Str) (t : List Str) :
    joinSep sep ((c :: h) :: t) = c :: joinSep sep (h :: t) := by
  cases t <;> rfl

/-- Rejoining the fields of a split restores the original string. -/
theorem joinSep_splitOnChar (sep : Char) :
    ∀ s : Str, joinSep sep (splitOnChar sep s) = s
  | [] => rfl
  | c :: cs => by
    have ih := joinSep_splitOnChar sep cs
    obtain ⟨h, t, hr⟩ := List.exists_cons_of_ne_nil (splitOnChar_ne_nil sep cs)
    by_cases hc : c = sep
    · subst hc
      simp only [splitOnChar, if_pos rfl, hr]
      simpa [joinSep, hr] using ih
    · simp only [splitOnChar, if_neg hc, hr, List.headD_cons, List.tail_cons]
      rw [joinSep_cons_head]
      rw [hr] at ih
      rw [ih]

/-- Trimming the empty string gives the empty string. -/
theorem jsTrim_nil : jsTrim [] = [] := rfl

/-- A segment whose tag name is not `__proto__` parses to its tag. -/
theorem parseSegment_ok (part : Str) (h : tagNameOf part ≠ str "__proto__") :
    parseSegment part = .ok (parsedTag part) := by
  unfold parseSegment describeTag
  rw [if_neg h]
  rfl

/-- The only message a segment parse can throw is the `TypeError` text. -/
theorem parseSegment_error (part : Str) (e : Str)
    (h : parseSegment part = .error e) : e = str "descriptionFn is not a function" := by
  unfold parseSegment describeTag at h
  by_cases hp : tagNameOf part = str "__proto__"
  · rw [if_pos hp] at h
    simp only [Except.map] at h
    injection h with he
    exact he.symm
  · rw [if_neg hp] at h
    simp [Except.map] at h

/-- The parse loop on throw-free segments pushes one tag per segment in
order. -/
theorem parseLoop_ok :
    ∀ (parts : List Str), (∀ part ∈ parts, tagNameOf part ≠ str "__proto__") →
      ∀ acc : List DmarcTag, parseLoop parts acc = .ok (acc ++ parts.map parsedTag)
  | [], _, acc => by simp [parseLoop]
  | part :: rest, h, acc => by
    have h1 : tagNameOf part ≠ str "__proto__" := h part (List.mem_cons_self part rest)
    have h2 : ∀ p ∈ rest, tagNameOf p ≠ str "__proto__" :=
      fun p hp => h p (List.mem_cons_of_mem part hp)
    simp only [parseLoop, parseSegment_ok part h1]
    rw [parseLoop_ok rest h2 (acc ++ [parsedTag part])]
    simp

/-- The only message the parse loop can throw is the `TypeError` text. -/
theorem parseLoop_error_msg :
    ∀ (parts : List Str) (acc : List DmarcTag) (e : Str),
      parseLoop parts acc = .error e → e = str "descriptionFn is not a function"
  | [], acc, e => by simp [parseLoop]
  | part :: rest, acc, e => by
    simp only [parseLoop]
    cases hps : parseSegment part with
    | error e2 =>
      intro h
      injection h with he
      rw [← he]
      exact parseSegment_error part e2 hps
    | ok t => exact fun h => parseLoop_error_msg rest (acc ++ [t]) e h

/-- Characters survive `stripUnderscoreDmarc` only if they were in the input. -/
theorem mem_stripUnderscoreDmarc {c : Char} {s : Str}
    (h : c ∈ stripUnderscoreDmarc s) : c ∈ s := by
  unfold stripUnderscoreDmarc at h
  split at h
  · exact List.drop_subset _ _ h
  · exact h

/-- Characters survive `stripScheme` only if they were in the input. -/
theorem mem_stripScheme {c : Char} {s : Str} (h : c ∈ stripScheme s) : c ∈ s := by
  unfold stripScheme at h
  split at h
  · exact List.drop_subset _ _ h
  · split at h
    · exact List.drop_subset _ _ h
    · exact h

/-- On inputs free of line terminators, the replacement `/\/.*$/ → ""` does
remove everything from the first `/` onward. -/
theorem stripAfterSlash_eq_takeWhile :
    ∀ s : Str, (∀ c ∈ s, isLineTerminator c = false) →
      stripAfterSlash s = s.takeWhile (fun c => !(c == '/'))
  | [], _ => rfl
  | c :: cs, h => by
    have hcs : ∀ d ∈ cs, isLineTerminator d = false :=
      fun d hd => h d (List.mem_cons_of_mem c hd)
    by_cases hc : c = '/'
    · subst hc
      have hall : cs.all (fun d => !isLineTerminator d) = true := by
        rw [List.all_eq_true]
        intro d hd
        rw [hcs d hd]
        rfl
      simp [stripAfterSlash, hall, List.takeWhile_cons]
    · have hg : (c = '/' && cs.all (fun d => !isLineTerminator d)) = false := by
        simp [hc]
      simp [stripAfterSlash, hg, List.takeWhile_cons, hc,
        stripAfterSlash_eq_takeWhile cs hcs]

/-- Unfolding the handler on a non-empty domain when the resolver answers
with TXT records. -/
theorem handleGet_ok (domain : Str) (records : List (List Str))
    (hd : domain ≠ []) :
    handleGet (some domain) (fun _ => DnsResult.ok records) =
      match selectDmarcRecord records with
      | none =>
        .failure 404 (str "No DMARC record found for " ++ normalizeDomain domain)
      | some dmarcRecord =>
        match parseDmarcRecord dmarcRecord with
        | .error msg =>
          if strContains (str "no record") msg then
            .failure 404 (str "No DMARC record found for " ++ normalizeDomain domain ++
              str ". The domain may not have DMARC configured.")
          else .failure 500 msg
        | .ok tags =>
          .success 200
            { domain := normalizeDomain domain
              record := dmarcRecord
              tags := tags
              policy := policyFromTags tags
              policyDescription := getPolicyDescription (policyFromTags tags) } := by
  simp only [handleGet, if_neg hd]

/-- Unfolding the handler on a non-empty domain when the resolver throws. -/
theorem handleGet_error (domain m : Str) (hd : domain ≠ []) :
    handleGet (some domain) (fun _ => DnsResult.error m) =
      if strContains (str "no record") m then
        .failure 404 (str "No DMARC record found for " ++ normalizeDomain domain ++
          str ". The domain may not have DMARC configured.")
      else .failure 500 m := by
  simp only [handleGet, if_neg hd]

/-! ## Claims -/

/-- C1 counterexample: the claim promises a returned tag sequence for every
input, but on `"v=DMARC1; __proto__=x"` — two non-empty trimmed segments —
the second segment's description lookup hits the non-callable
`Object.prototype` and the parse throws instead of returning any sequence. -/
theorem c1_counterexample :
    parseDmarcRecord (str "v=DMARC1; __proto__=x") =
      .error (str "descriptionFn is not a function") ∧
    (segments (str "v=DMARC1; __proto__=x")).length = 2 ∧
    (parseDmarcRecord (str "v=DMARC1; __proto__=x")).toOption = none := by
  decide

/-- C1 (amended): for every input string none of whose non-empty trimmed
segments has the (trimmed, lowercased) tag name `__proto__`, the parse
succeeds and returns one tag per segment, in exactly the segments'
left-to-right order (the i-th tag is the parse of the i-th surviving
segment), so the returned length equals the number of such segments; in
particular the empty string parses to the empty sequence. -/
theorem c1_parse_order_and_count (record : Str)
    (h : ∀ part ∈ segments record, tagNameOf part ≠ str "__proto__") :
    parseDmarcRecord record = .ok ((segments record).map parsedTag) ∧
    ((segments record).map parsedTag).length = (segments record).length ∧
    parseDmarcRecord (str "") = .ok [] := by
  refine ⟨?_, by simp, by decide⟩
  unfold parseDmarcRecord
  simpa using parseLoop_ok (segments record) h []

/-- Witness for C1 at the record `"v=DMARC1; p=reject; pct=100"`. -/
theorem c1_parse_order_and_count_witness :
    parseDmarcRecord (str "v=DMARC1; p=reject; pct=100") =
      .ok ((segments (str "v=DMARC1; p=reject; pct=100")).map parsedTag) ∧
    ((segments (str "v=DMARC1; p=reject; pct=100")).map parsedTag).length =
      (segments (str "v=DMARC1; p=reject; pct=100")).length ∧
    parseDmarcRecord (str "") = .ok [] :=
  c1_parse_order_and_count (str "v=DMARC1; p=reject; pct=100") (by decide)

/-- C2 counterexample: `"__proto__"` is a non-empty `=`-free segment, so the
claim promises a Tag with empty value, but its description lookup throws and
no Tag is produced. -/
theorem c2_counterexample :
    '=' ∉ str "__proto__" ∧
    parseSegment (str "__proto__") = .error (str "descriptionFn is not a function") ∧
    (parseSegment (str "__proto__")).toOption = none := by
  decide

/-- C2 (amended): every segment whose (trimmed, lowercased) tag name is not
`__proto__` (that name makes the description lookup throw before the Tag is
pushed) is split on its first `=` only: the produced Tag's tag field is the
text before the first `=`, trimmed and lowercased; its value field is all
the text after the first `=` (later `=` characters preserved by the
rejoin), trimmed; and a segment with no `=` gets the empty value. -/
theorem c2_split_on_first_equals (a b part : Str)
    (ha : '=' ∉ a) (hp : '=' ∉ part)
    (hpa : toLowerStr (jsTrim a) ≠ str "__proto__")
    (hpp : toLowerStr (jsTrim part) ≠ str "__proto__") :
    parseSegment (a ++ '=' :: b) = .ok (parsedTag (a ++ '=' :: b)) ∧
    (parsedTag (a ++ '=' :: b)).tag = toLowerStr (jsTrim a) ∧
    (parsedTag (a ++ '=' :: b)).value = jsTrim b ∧
    parseSegment part = .ok (parsedTag part) ∧
    (parsedTag part).tag = toLowerStr (jsTrim part) ∧
    (parsedTag part).value = str "" := by
  have h1 := splitOnChar_first '=' a b ha
  have h2 := splitOnChar_no_sep '=' part hp
  have ht1 : tagNameOf (a ++ '=' :: b) = toLowerStr (jsTrim a) := by
    unfold tagNameOf
    rw [h1]
    rfl
  have ht2 : tagNameOf part = toLowerStr (jsTrim part) := by
    unfold tagNameOf
    rw [h2]
    rfl
  have hv1 : segValueOf (a ++ '=' :: b) = jsTrim b := by
    unfold segValueOf
    rw [h1]
    simp [joinSep_splitOnChar]
  have hv2 : segValueOf part = str "" := by
    unfold segValueOf
    rw [h2]
    rfl
  refine ⟨parseSegment_ok _ (by rw [ht1]; exact hpa), ?_, ?_,
    parseSegment_ok _ (by rw [ht2]; exact hpp), ?_, ?_⟩
  · show tagNameOf (a ++ '=' :: b) = _
    exact ht1
  · show segValueOf (a ++ '=' :: b) = _
    exact hv1
  · show tagNameOf part = _
    exact ht2
  · show segValueOf part = _
    exact hv2

/-- Witness for C2 at the segment `"P = mailto:a=b "` (tag trimmed and
lowercased to `p`, value keeps its inner `=`) and the `=`-free segment
`"fo"`. -/
theorem c2_split_on_first_equals_witness :
    parseSegment (str "P " ++ '=' :: str " mailto:a=b ") =
      .ok (parsedTag (str "P " ++ '=' :: str " mailto:a=b ")) ∧
    (parsedTag (str "P " ++ '=' :: str " mailto:a=b ")).tag =
      toLowerStr (jsTrim (str "P ")) ∧
    (parsedTag (str "P " ++ '=' :: str " mailto:a=b ")).value =
      jsTrim (str " mailto:a=b ") ∧
    parseSegment (str "fo") = .ok (parsedTag (str "fo")) ∧
    (parsedTag (str "fo")).tag = toLowerStr (jsTrim (str "fo")) ∧
    (parsedTag (str "fo")).value = str "" :=
  c2_split_on_first_equals (str "P ") (str " mailto:a=b ") (str "fo")
    (by decide) (by decide) (by decide) (by decide)

/-- C5 counterexample: the claim says normalization removes everything from
the first `/` onward for every input, but the regex `/\/.*$/` cannot match
across a line terminator, so `"example.com/a\nb"` is left unchanged instead
of becoming `"example.com"`. -/
theorem c5_counterexample :
    normalizeDomain (str "example.com/a\nb") = str "example.com/a\nb" ∧
    ¬normalizeDomain (str "example.com/a\nb") = str "example.com" := by
  decide

/-- C5 (amended): normalization strips a leading `_dmarc.` prefix if
present, then a leading `http://` or `https://` scheme, then — provided the
input contains no line terminator — removes everything from the first `/`
onward; in particular `"_dmarc.example.com"` normalizes to `"example.com"`
and `"https://example.com/path"` normalizes to `"example.com"`. -/
theorem c5_normalize_domain (d : Str)
    (h : ∀ c ∈ d, isLineTerminator c = false) :
    normalizeDomain d =
      (stripScheme (stripUnderscoreDmarc d)).takeWhile (fun c => !(c == '/')) ∧
    normalizeDomain (str "_dmarc.example.com") = str "example.com" ∧
    normalizeDomain (str "https://example.com/path") = str "example.com" := by
  refine ⟨?_, by decide, by decide⟩
  unfold normalizeDomain
  apply stripAfterSlash_eq_takeWhile
  intro c hc
  exact h c (mem_stripUnderscoreDmarc (mem_stripScheme hc))

/-- Witness for C5 at the input `"https://example.com/path"`. -/
theorem c5_normalize_domain_witness :
    normalizeDomain (str "https://example.com/path") =
      (stripScheme (stripUnderscoreDmarc (str "https://example.com/path"))).takeWhile
        (fun c => !(c == '/')) ∧
    normalizeDomain (str "_dmarc.example.com") = str "example.com" ∧
    normalizeDomain (str "https://example.com/path") = str "example.com" :=
  c5_normalize_domain (str "https://example.com/path") (by decide)

/-- C7 counterexample: `parseInt` returns a double, so the digit value
9007199254744199 (odd, just above 2^53) is rounded to 9007199254744200 and
the program prints 2501999792985 hours, while the claim's exact reading —
the numeric parse divided by 3600 and rounded to nearest — gives
round(9007199254744199 / 3600) = 2501999792984. -/
theorem c7_counterexample :
    describeTag (str "ri") (str "9007199254744199") =
      .ok (.s (str "Report interval: 9007199254744199 seconds (2501999792985 hours)")) ∧
    round ((9007199254744199 : ℚ) / 3600) = 2501999792984 ∧
    ¬(2501999792985 : Int) = 2501999792984 := by
  refine ⟨?_, ?_, by decide⟩
  · have hj : jsParseInt (str "9007199254744199") = some 9007199254744200 := by decide
    have hr : mathRound (((9007199254744200 : Int) : ℚ) / 3600) = 2501999792985 := by
      rw [mathRound]
      norm_num
    have hd : describeTag (str "ri") (str "9007199254744199") =
        .ok (.s (str "Report interval: " ++ str "9007199254744199" ++ str " seconds (" ++
          riHours (str "9007199254744199") ++ str " hours)")) := rfl
    rw [hd]
    rw [show riHours (str "9007199254744199") =
      intToStr (mathRound (((9007199254744200 : Int) : ℚ) / 3600)) from by
        simp [riHours, hj]]
    rw [hr]
    decide
  · rw [round_eq]
    norm_num

/-- C7 (amended): for every `ri` tag value whose numeric parse has magnitude
below 2^53 — the range in which `parseInt`'s double result is the exact
digit value and the double divide/round/print pipeline agrees with exact
arithmetic — the description is
`"Report interval: <value> seconds (<h> hours)"` where `<h>` is the parse
divided by 3600 and rounded to the nearest integer (`round`, half toward
positive infinity, exactly `Math.round`); parses at or beyond 2^53 are first
rounded to the nearest double; a non-numeric value gives the not-a-number
rendering `"NaN"` rather than an error.  For example `86400` gives 24 hours
and `daily` gives `NaN` hours. -/
theorem c7_ri_description (value : Str)
    (_h53 : (jsParseInt value).all (fun n => n.natAbs < 2 ^ 53) = true) :
    describeTag (str "ri") value =
      .ok (.s (str "Report interval: " ++ value ++ str " seconds (" ++
        (match jsParseInt value with
         | some n => intToStr (round ((n : ℚ) / 3600))
         | none => str "NaN") ++ str " hours)")) ∧
    describeTag (str "ri") (str "86400") =
      .ok (.s (str "Report interval: 86400 seconds (24 hours)")) ∧
    describeTag (str "ri") (str "daily") =
      .ok (.s (str "Report interval: daily seconds (NaN hours)")) := by
  refine ⟨?_, ?_, ?_⟩
  · have hd : describeTag (str "ri") value =
        .ok (.s (str "Report interval: " ++ value ++ str " seconds (" ++
          riHours value ++ str " hours)")) := rfl
    rw [hd]
    cases hj : jsParseInt value with
    | none => simp [riHours, hj]
    | some n => simp [riHours, hj, mathRound, round_eq]
  · have hj : jsParseInt (str "86400") = some 86400 := by decide
    have hr : mathRound (((86400 : Int) : ℚ) / 3600) = 24 := by
      rw [mathRound]
      norm_num
    have hd : describeTag (str "ri") (str "86400") =
        .ok (.s (str "Report interval: " ++ str "86400" ++ str " seconds (" ++
          riHours (str "86400") ++ str " hours)")) := rfl
    rw [hd]
    rw [show riHours (str "86400") =
      intToStr (mathRound (((86400 : Int) : ℚ) / 3600)) from by simp [riHours, hj]]
    rw [hr]
    decide
  · have hj : jsParseInt (str "daily") = none := by decide
    have hd : describeTag (str "ri") (str "daily") =
        .ok (.s (str "Report interval: " ++ str "daily" ++ str " seconds (" ++
          riHours (str "daily") ++ str " hours)")) := rfl
    rw [hd]
    rw [show riHours (str "daily") = str "NaN" from by simp [riHours, hj]]
    decide

/-- Witness for C7 at the value `"86400"` (parse well below 2^53). -/
theorem c7_ri_description_witness :
    describeTag (str "ri") (str "86400") =
      .ok (.s (str "Report interval: " ++ str "86400" ++ str " seconds (" ++
        (match jsParseInt (str "86400") with
         | some n => intToStr (round ((n : ℚ) / 3600))
         | none => str "NaN") ++ str " hours)")) ∧
    describeTag (str "ri") (str "86400") =
      .ok (.s (str "Report interval: 86400 seconds (24 hours)")) ∧
    describeTag (str "ri") (str "daily") =
      .ok (.s (str "Report interval: daily seconds (NaN hours)")) :=
  c7_ri_description (str "86400") (by decide)

/-- C8: for `adkim` and `aspf` the value `"s"` yields the strict-alignment
sentence and every other value — including `"r"`, `"x"`, and the empty
string — yields the relaxed-alignment sentence; the value is not otherwise
validated. -/
theorem c8_alignment_descriptions (value : Str) :
    describeTag (str "adkim") value =
      .ok (.s (if value = str "s" then str "DKIM alignment: Strict (exact domain match required)"
       else str "DKIM alignment: Relaxed (organizational domain match allowed)")) ∧
    describeTag (str "aspf") value =
      .ok (.s (if value = str "s" then str "SPF alignment: Strict (exact domain match required)"
       else str "SPF alignment: Relaxed (organizational domain match allowed)")) ∧
    describeTag (str "adkim") (str "s") =
      .ok (.s (str "DKIM alignment: Strict (exact domain match required)")) ∧
    describeTag (str "adkim") (str "r") =
      .ok (.s (str "DKIM alignment: Relaxed (organizational domain match allowed)")) ∧
    describeTag (str "adkim") (str "x") =
      .ok (.s (str "DKIM alignment: Relaxed (organizational domain match allowed)")) ∧
    describeTag (str "adkim") (str "") =
      .ok (.s (str "DKIM alignment: Relaxed (organizational domain match allowed)")) :=
  ⟨rfl, rfl, by decide, by decide, by decide, by decide⟩

/-- C3 counterexample: the resolver's single TXT record qualifies (it starts
with `v=DMARC1`), yet the handler returns 500 — not the promised 200 success
with parsed tags — because the record's `__proto__` segment makes the parse
throw inside the `try`. -/
theorem c3_counterexample :
    selectDmarcRecord [[str "v=DMARC1; __proto__=x"]] =
      some (str "v=DMARC1; __proto__=x") ∧
    handleGet (some (str "example.com"))
        (fun _ => DnsResult.ok [[str "v=DMARC1; __proto__=x"]]) =
      .failure 500 (str "descriptionFn is not a function") := by
  decide

/-- C3 (amended): the lookup concatenates the chunks of each TXT record,
selects the first record whose concatenated text starts case-insensitively
with `v=dmarc1`, and fails with the 404 NotFound outcome naming the domain
exactly when no answer qualifies; when a qualifying record exists and its
parse does not throw, the response is a 200 success whose tags are the parse
of the selected record and whose record field is that raw string; when the
parse throws (a `__proto__` tag name), the caught `TypeError` surfaces as a
500 with its message. -/
theorem c3_record_selection (domain : Str) (records : List (List Str))
    (hd : domain ≠ []) :
    (selectDmarcRecord records =
      (records.map List.flatten).find?
        (fun r => strStartsWith (str "v=dmarc1") (toLowerStr r))) ∧
    (selectDmarcRecord records = none ↔
      handleGet (some domain) (fun _ => DnsResult.ok records) =
        .failure 404 (str "No DMARC record found for " ++ normalizeDomain domain)) ∧
    (∀ r tags, selectDmarcRecord records = some r →
      parseDmarcRecord r = .ok tags →
      handleGet (some domain) (fun _ => DnsResult.ok records) =
        .success 200
          { domain := normalizeDomain domain
            record := r
            tags := tags
            policy := policyFromTags tags
            policyDescription := getPolicyDescription (policyFromTags tags) }) ∧
    (∀ r e, selectDmarcRecord records = some r →
      parseDmarcRecord r = .error e →
      handleGet (some domain) (fun _ => DnsResult.ok records) =
        .failure 500 (str "descriptionFn is not a function")) := by
  have hbase := handleGet_ok domain records hd
  refine ⟨rfl, ?_, ?_, ?_⟩
  · cases hsel : selectDmarcRecord records with
    | none => simp [hbase, hsel]
    | some r =>
      simp only [hsel] at hbase
      constructor
      · intro hno
        exact absurd hno (by simp)
      · intro hfail
        rw [hbase] at hfail
        exfalso
        cases hp : parseDmarcRecord r with
        | ok tags =>
          simp only [hp] at hfail
          cases hfail
        | error e =>
          have he : e = str "descriptionFn is not a function" :=
            parseLoop_error_msg (segments r) [] e hp
          subst he
          simp only [hp] at hfail
          rw [if_neg (by decide)] at hfail
          injection hfail with h1 h2
          exact absurd h1 (by decide)
  · intro r tags hsel hp
    simp only [hsel, hp] at hbase
    exact hbase
  · intro r e hsel hp
    have he : e = str "descriptionFn is not a function" :=
      parseLoop_error_msg (segments r) [] e hp
    subst he
    simp only [hsel, hp] at hbase
    rw [hbase, if_neg (by decide)]

/-- Witness for C3 at the end-to-end example of the spec: the resolver
returns an SPF record followed by a DMARC record, and the second one is
selected and parsed. -/
theorem c3_record_selection_witness :
    handleGet (some (str "example.com"))
      (fun _ => DnsResult.ok
        [[str "v=spf1 include:example.net -all"],
         [str "v=DMARC1; p=quarantine; rua=mailto:d@example.com"]]) =
      .success 200
        { domain := normalizeDomain (str "example.com")
          record := str "v=DMARC1; p=quarantine; rua=mailto:d@example.com"
          tags := (segments (str "v=DMARC1; p=quarantine; rua=mailto:d@example.com")).map parsedTag
          policy := policyFromTags
            ((segments (str "v=DMARC1; p=quarantine; rua=mailto:d@example.com")).map parsedTag)
          policyDescription := getPolicyDescription (policyFromTags
            ((segments (str "v=DMARC1; p=quarantine; rua=mailto:d@example.com")).map parsedTag)) } :=
  (c3_record_selection (str "example.com") _ (by decide)).2.2.1 _ _
    (by decide) (by decide)

/-- C4 counterexample: on the record `"v=DMARC1; p="` the parsed sequence
contains a `p` tag whose value is the empty string, yet the response's
policy is `"none"` rather than that (empty) value — `policyTag?.value ||
"none"` treats a present-but-empty value as missing. -/
theorem c4_counterexample :
    resultTags (handleGet (some (str "example.com"))
        (fun _ => DnsResult.ok [[str "v=DMARC1; p="]])) =
      some [⟨str "v", str "DMARC1", .s (str "DMARC version: DMARC1")⟩,
            ⟨str "p", str "", .s (str "Policy: ")⟩] ∧
    resultPolicy (handleGet (some (str "example.com"))
        (fun _ => DnsResult.ok [[str "v=DMARC1; p="]])) = some (str "none") ∧
    ¬str "none" = str "" := by
  decide

/-- C4 (amended): for every successfully selected record, the response's
policy equals the value of the first `p` tag in the parsed sequence when
that value is non-empty, and is `"none"` when the `p` tag is absent or its
value is empty; when no `p` tag is present, policyDescription is the
monitoring-only summary sentence. -/
theorem c4_policy_default (domainParam : Option Str)
    (resolve : Str → DnsResult) (payload : DmarcResponse)
    (h : handleGet domainParam resolve = .success 200 payload) :
    payload.policy =
      (match payload.tags.find? (fun t => t.tag == str "p") with
       | some t => if t.value = [] then str "none" else t.value
       | none => str "none") ∧
    (payload.tags.find? (fun t => t.tag == str "p") = none →
      payload.policyDescription =
        str "This domain has a monitoring-only DMARC policy. No action is taken on failing emails, but reports may be collected. This provides no protection against spoofing.") := by
  rcases domainParam with _ | d
  · simp [handleGet] at h
  · by_cases hd : d = []
    · simp [handleGet, if_pos hd] at h
    · simp only [handleGet, if_neg hd] at h
      rcases hres : resolve (str "_dmarc." ++ normalizeDomain d) with recs | m
      · simp only [hres] at h
        rcases hsel : selectDmarcRecord recs with _ | r
        · simp only [hsel] at h
          cases h
        · simp only [hsel] at h
          rcases hp : parseDmarcRecord r with e | tags
          · simp only [hp] at h
            by_cases hc : strContains (str "no record") e = true
            · simp [hc] at h
            · simp [hc] at h
          · simp only [hp] at h
            injection h with hstatus hpayload
            subst hpayload
            constructor
            · rfl
            · intro hn
              have hn2 : tags.find? (fun t => t.tag == str "p") = none := hn
              show getPolicyDescription (policyFromTags tags) = _
              unfold policyFromTags
              rw [hn2]
              decide
      · simp only [hres] at h
        by_cases hc : strContains (str "no record") m = true
        · simp [hc] at h
        · simp [hc] at h

/-- Witness for C4 at a record with no `p` tag: the policy defaults to
`"none"` and the description is the monitoring-only sentence. -/
theorem c4_policy_default_witness :
    (DmarcResponse.mk (str "example.com") (str "v=DMARC1")
        [⟨str "v", str "DMARC1", .s (str "DMARC version: DMARC1")⟩] (str "none")
        (str "This domain has a monitoring-only DMARC policy. No action is taken on failing emails, but reports may be collected. This provides no protection against spoofing.")).policy =
      (match (DmarcResponse.mk (str "example.com") (str "v=DMARC1")
          [⟨str "v", str "DMARC1", .s (str "DMARC version: DMARC1")⟩] (str "none")
          (str "This domain has a monitoring-only DMARC policy. No action is taken on failing emails, but reports may be collected. This provides no protection against spoofing.")).tags.find?
            (fun t => t.tag == str "p") with
       | some t => if t.value = [] then str "none" else t.value
       | none => str "none") ∧
    ((DmarcResponse.mk (str "example.com") (str "v=DMARC1")
        [⟨str "v", str "DMARC1", .s (str "DMARC version: DMARC1")⟩] (str "none")
        (str "This domain has a monitoring-only DMARC policy. No action is taken on failing emails, but reports may be collected. This provides no protection against spoofing.")).tags.find?
          (fun t => t.tag == str "p") = none →
      (DmarcResponse.mk (str "example.com") (str "v=DMARC1")
        [⟨str "v", str "DMARC1", .s (str "DMARC version: DMARC1")⟩] (str "none")
        (str "This domain has a monitoring-only DMARC policy. No action is taken on failing emails, but reports may be collected. This provides no protection against spoofing.")).policyDescription =
        str "This domain has a monitoring-only DMARC policy. No action is taken on failing emails, but reports may be collected. This provides no protection against spoofing.") :=
  c4_policy_default (some (str "example.com"))
    (fun _ => DnsResult.ok [[str "v=DMARC1"]]) _ (by decide)

/-- C6: the endpoint's error outcomes partition cleanly: a missing or empty
domain parameter yields 400 `"Domain is required"` whatever the resolver
would do (no DNS query is consulted); a resolver failure whose message
reports `no record` yields 404 with a message naming the (normalized)
domain; every other resolver failure yields 500 with the underlying
message; and every outcome is either a full success payload with status 200
or an error with status 400, 404 or 500 — never a mix. -/
theorem c6_error_taxonomy (resolve : Str → DnsResult) (domain m : Str)
    (hd : domain ≠ []) :
    handleGet none resolve = .failure 400 (str "Domain is required") ∧
    handleGet (some []) resolve = .failure 400 (str "Domain is required") ∧
    (strContains (str "no record") m = true →
      handleGet (some domain) (fun _ => DnsResult.error m) =
        .failure 404 (str "No DMARC record found for " ++ normalizeDomain domain ++
          str ". The domain may not have DMARC configured.")) ∧
    (strContains (str "no record") m = false →
      handleGet (some domain) (fun _ => DnsResult.error m) = .failure 500 m) ∧
    (∀ (dp : Option Str) (res : Str → DnsResult),
      (∃ p, handleGet dp res = .success 200 p) ∨
      (∃ s e, handleGet dp res = .failure s e ∧ (s = 400 ∨ s = 404 ∨ s = 500))) := by
  refine ⟨rfl, rfl, ?_, ?_, ?_⟩
  · intro hc
    rw [handleGet_error domain m hd, if_pos hc]
  · intro hc
    rw [handleGet_error domain m hd, if_neg (by simp [hc])]
  · intro dp res
    rcases dp with _ | d
    · exact Or.inr ⟨400, _, rfl, Or.inl rfl⟩
    · by_cases hd2 : d = []
      · simp only [handleGet, if_pos hd2]
        exact Or.inr ⟨400, _, rfl, Or.inl rfl⟩
      · simp only [handleGet, if_neg hd2]
        rcases hres : res (str "_dmarc." ++ normalizeDomain d) with recs | m2
        · simp only [hres]
          rcases hsel : selectDmarcRecord recs with _ | r
          · simp only [hsel]
            exact Or.inr ⟨404, _, rfl, Or.inr (Or.inl rfl)⟩
          · simp only [hsel]
            rcases hp : parseDmarcRecord r with e | tags
            · simp only [hp]
              by_cases hc : strContains (str "no record") e = true
              · rw [if_pos hc]
                exact Or.inr ⟨404, _, rfl, Or.inr (Or.inl rfl)⟩
              · rw [if_neg (by simp [hc])]
                exact Or.inr ⟨500, _, rfl, Or.inr (Or.inr rfl)⟩
            · simp only [hp]
              exact Or.inl ⟨_, rfl⟩
        · simp only [hres]
          by_cases hc : strContains (str "no record") m2 = true
          · rw [if_pos hc]
            exact Or.inr ⟨404, _, rfl, Or.inr (Or.inl rfl)⟩
          · rw [if_neg (by simp [hc])]
            exact Or.inr ⟨500, _, rfl, Or.inr (Or.inr rfl)⟩

/-- Witness for C6 at the domain `"example.com"` with a resolver error
message that does not mention `no record`. -/
theorem c6_error_taxonomy_witness :
    handleGet none (fun _ => DnsResult.error (str "connection timed out")) =
      .failure 400 (str "Domain is required") ∧
    handleGet (some []) (fun _ => DnsResult.error (str "connection timed out")) =
      .failure 400 (str "Domain is required") ∧
    (strContains (str "no record") (str "connection timed out") = true →
      handleGet (some (str "example.com")) (fun _ => DnsResult.error (str "connection timed out")) =
        .failure 404 (str "No DMARC record found for " ++
          normalizeDomain (str "example.com") ++
          str ". The domain may not have DMARC configured.")) ∧
    (strContains (str "no record") (str "connection timed out") = false →
      handleGet (some (str "example.com")) (fun _ => DnsResult.error (str "connection timed out")) =
        .failure 500 (str "connection timed out")) ∧
    (∀ (dp : Option Str) (res : Str → DnsResult),
      (∃ p, handleGet dp res = .success 200 p) ∨
      (∃ s e, handleGet dp res = .failure s e ∧ (s = 400 ∨ s = 404 ∨ s = 500))) :=
  c6_error_taxonomy (fun _ => DnsResult.error (str "connection timed out"))
    (str "example.com") (str "connection timed out") (by decide)

/-- C9: a first `p` tag with an empty value — from the segment `"p"` or
`"p="` — yields policy `"none"`, exactly as when the `p` tag is absent, and
with several `p` tags only the first one's value determines the policy (the
general head rule, plus the handler on concrete records). -/
theorem c9_empty_and_repeated_p :
    (∀ (t : DmarcTag) (ts : List DmarcTag),
      policyFromTags (t :: ts) =
        if t.tag == str "p" then
          (if t.value = [] then str "none" else t.value)
        else policyFromTags ts) ∧
    resultPolicy (handleGet (some (str "example.com"))
      (fun _ => DnsResult.ok [[str "v=DMARC1; p="]])) = some (str "none") ∧
    resultPolicy (handleGet (some (str "example.com"))
      (fun _ => DnsResult.ok [[str "v=DMARC1; p"]])) = some (str "none") ∧
    resultPolicy (handleGet (some (str "example.com"))
      (fun _ => DnsResult.ok [[str "v=DMARC1"]])) = some (str "none") ∧
    resultPolicy (handleGet (some (str "example.com"))
      (fun _ => DnsResult.ok [[str "v=DMARC1; p=quarantine; p=reject"]])) =
      some (str "quarantine") := by
  refine ⟨?_, by decide, by decide, by decide, by decide⟩
  intro t ts
  by_cases hpt : (t.tag == str "p") = true
  · simp [policyFromTags, List.find?_cons_of_pos, hpt]
  · have hpt2 : (t.tag == str "p") = false := by
      simpa using hpt
    simp [policyFromTags, List.find?_cons_of_neg, hpt2]

/-- C10: tag values are never lowercased and the policy summary matches
case-sensitively: `"v=DMARC1; p=REJECT"` is selected (record selection is
case-insensitive), the parsed `p` value stays `"REJECT"`, the policy is
`"REJECT"`, its description is `"Unknown policy type."` rather than the
reject sentence, and tag names are lowercased even when values are not. -/
theorem c10_case_sensitivity :
    resultRecord (handleGet (some (str "example.com"))
      (fun _ => DnsResult.ok [[str "v=DMARC1; p=REJECT"]])) =
      some (str "v=DMARC1; p=REJECT") ∧
    resultTags (handleGet (some (str "example.com"))
      (fun _ => DnsResult.ok [[str "v=DMARC1; p=REJECT"]])) =
      some [⟨str "v", str "DMARC1", .s (str "DMARC version: DMARC1")⟩,
            ⟨str "p", str "REJECT", .s (str "Policy: REJECT")⟩] ∧
    resultPolicy (handleGet (some (str "example.com"))
      (fun _ => DnsResult.ok [[str "v=DMARC1; p=REJECT"]])) =
      some (str "REJECT") ∧
    resultPolicyDescription (handleGet (some (str "example.com"))
      (fun _ => DnsResult.ok [[str "v=DMARC1; p=REJECT"]])) =
      some (str "Unknown policy type.") ∧
    getPolicyDescription (str "REJECT") = str "Unknown policy type." ∧
    parseSegment (str "P=REJECT") = .ok (parsedTag (str "P=REJECT")) ∧
    (parsedTag (str "P=REJECT")).tag = str "p" ∧
    (parsedTag (str "P=REJECT")).value = str "REJECT" := by
  decide

end Dmarc
